import Mathlib

/-!
Shallow embedding of the `ipstack` core (`src/lib.rs`): the flow
demultiplexing and device-I/O orchestration loop spawned by `IpStack::new`,
together with the `IpStack::accept` operation and the platform framing
constants.

The collaborator modules (`packet`, `stream`, `error`) are not part of the
embedded source; their behaviour at the loop's call sites is captured by
oracle functions in `Env` and by data carried on `NetworkPacket`, following
the contracts stated in the specification.  The loop body itself is
translated line by line from `IpStack::new`.
-/

namespace Ipstack

/-- Compilation target, as tested by the `cfg!` / `#[cfg]` directives in the
source.  Only the three targets the source distinguishes are modelled. -/
inductive Platform
  | linux
  | macos
  | windows
deriving DecidableEq

/-- A transport endpoint address.  `isIpv4` records the IP version (the only
thing the core inspects about an address, via `src_addr().is_ipv4()`); the
remaining fields make distinct endpoints distinguishable. -/
structure Addr where
  isIpv4 : Bool
  host : Nat
  port : Nat
deriving DecidableEq

/-- Transport protocol tag of a flow. -/
inductive Proto
  | tcp
  | udp
deriving DecidableEq

/-- `NetworkTuple`: flow identity `(transport, src, dst)`, hashable and
equality-comparable in the source (`HashMap` key). -/
structure NetworkTuple where
  proto : Proto
  src : Addr
  dst : Addr
deriving DecidableEq

/-- Reversing a tuple swaps source and destination, protocol unchanged. -/
def NetworkTuple.reverse (t : NetworkTuple) : NetworkTuple :=
  ⟨t.proto, t.dst, t.src⟩

/-- `IpStackPacketProtocol`: the transport tag carried by a parsed packet;
TCP carries handshake metadata that the core only passes through, modelled
as an opaque `Nat`. -/
inductive IpStackPacketProtocol
  | Tcp (h : Nat)
  | Udp
deriving DecidableEq

/-- `NetworkPacket`: a parsed frame.  Modelled from the spec: the Packet
Model collaborator (`packet` module, not in the embedded source) exposes
source and destination addresses, the transport tag, payload bytes, the
time-to-live, and a fallible `to_bytes`; the result of `to_bytes` for this
packet is carried as the `serialized` field (`none` models `Err`). -/
structure NetworkPacket where
  src_addr : Addr
  dst_addr : Addr
  transport : IpStackPacketProtocol
  payload : List Nat
  ttl : Nat
  serialized : Option (List Nat)
deriving DecidableEq

/-- Protocol tag of a packet, as its tuple records it. -/
def NetworkPacket.proto (p : NetworkPacket) : Proto :=
  match p.transport with
  | .Tcp _ => .tcp
  | .Udp => .udp

/-- `packet.network_tuple()`: the tuple in the packet's own src→dst
direction. -/
def NetworkPacket.network_tuple (p : NetworkPacket) : NetworkTuple :=
  ⟨p.proto, p.src_addr, p.dst_addr⟩

/-- `packet.reverse_network_tuple()`. -/
def NetworkPacket.reverse_network_tuple (p : NetworkPacket) : NetworkTuple :=
  ⟨p.proto, p.dst_addr, p.src_addr⟩

/-- `TUN_FLAGS` (`[0x00, 0x00]`, defined for linux and macos). -/
def TUN_FLAGS : List Nat := [0x00, 0x00]

/-- `TUN_PROTO_IP4` per target.  The source defines it only under
`#[cfg(target_os = "linux")]` and `#[cfg(target_os = "macos")]`; the
windows case returns `[]` to mark the constant's absence and is never
consulted by `egressPrepend`. -/
def TUN_PROTO_IP4 : Platform → List Nat
  | .linux => [0x08, 0x00]
  | .macos => [0x00, 0x02]
  | .windows => []

/-- `TUN_PROTO_IP6` per target, with the same cfg-gating caveat. -/
def TUN_PROTO_IP6 : Platform → List Nat
  | .linux => [0x86, 0xdd]
  | .macos => [0x00, 0x02]
  | .windows => []

/-- The inbound strip offset:
`if packet_info && cfg!(not(target_os = "windows")) {4} else {0}`. -/
def inboundOffset (plat : Platform) (packet_info : Bool) : Nat :=
  if packet_info && !(plat = Platform.windows) then 4 else 0

/-- The inbound slice `&buffer[offset..n]`, where the first `n` bytes of the
read buffer are `bytes` (the device read never returns more than the
65535-byte buffer, so the only possible bounds violation is
`offset > n`).  Rust slicing panics out of bounds; the panic is modelled as
`none`. -/
def stripContent (offset : Nat) (bytes : List Nat) : Option (List Nat) :=
  if offset ≤ bytes.length then some (List.drop offset bytes) else none

/-- The egress framing step: on linux and macos, when `packet_info` is set,
`packet_byte.splice(0..0, [TUN_FLAGS, TUN_PROTO_IP4/6].concat())` prepends
the four header bytes chosen by `packet.src_addr().is_ipv4()`; the whole
block is compiled out on windows. -/
def egressPrepend (plat : Platform) (packet_info : Bool) (isIpv4 : Bool)
    (packet_byte : List Nat) : List Nat :=
  match plat with
  | .windows => packet_byte
  | _ =>
    if packet_info then
      (TUN_FLAGS ++ (if isIpv4 then TUN_PROTO_IP4 plat else TUN_PROTO_IP6 plat))
        ++ packet_byte
    else
      packet_byte

/-- `IpStackStream`: a session as published to the acceptor, tagged by
transport kind; the session object itself is opaque to the core and is
identified here by the numeric id of its inbound sender. -/
inductive IpStackStream
  | Tcp (id : Nat)
  | Udp (id : Nat)
deriving DecidableEq

/-- Collaborator oracles: the behaviour, at this loop's call sites, of the
code the core calls into.  Modelled from the spec: the `packet` and
`stream` modules are not in the embedded source.
* `parse` — `NetworkPacket::parse` (`none` models `Err`);
* `tcpNew` — whether `IpStackTcpStream::new(src, dst, h, …, mtu)` succeeds;
* `sendOk` — whether `entry.get().send(packet)` on the inbound channel with
  the given sender id succeeds (receiver still alive);
* `acceptOpen` — whether the receiver half of the acceptor channel is still
  held (an `accept_sender.send` fails exactly when it is not);
* `writeOk` — whether `device.write_all` of the given buffer succeeds. -/
structure Env where
  parse : List Nat → Option NetworkPacket
  tcpNew : Addr → Addr → Nat → Bool
  sendOk : Nat → Bool
  acceptOpen : Bool
  writeOk : List Nat → Bool

/-- Why the spawned loop task exited. -/
inductive TermReason
  | writeError
  | acceptClosed
  | sliceOutOfBounds
deriving DecidableEq

/-- Observable state of the orchestration loop task:
* `streams` — the `HashMap<NetworkTuple, UnboundedSender<NetworkPacket>>`,
  modelled as an association list (senders as numeric ids);
* `nextId` — allocator for fresh inbound-sender ids;
* `accepted` — the queue of sessions published through `accept_sender`, in
  order, not yet consumed by `accept`;
* `forwarded` — the inbound frames successfully delivered to a session's
  inbound channel, as (sender id, packet) pairs, in order;
* `written` — the buffers written to the device, in order;
* `term` — `some r` once the task has exited (via `?` propagation or a
  panic), `none` while the loop is live. -/
structure LoopState where
  streams : List (NetworkTuple × Nat)
  nextId : Nat
  accepted : List IpStackStream
  forwarded : List (Nat × NetworkPacket)
  written : List (List Nat)
  term : Option TermReason
deriving DecidableEq

/-- The state just after `IpStack::new` spawns the task. -/
def initState : LoopState :=
  ⟨[], 0, [], [], [], none⟩

/-- `streams.entry(k)` lookup / `HashMap` membership on the association
list. -/
def lookupT (m : List (NetworkTuple × Nat)) (k : NetworkTuple) : Option Nat :=
  match m with
  | [] => none
  | (k1, v) :: rest => if k1 = k then some v else lookupT rest k

/-- `streams.remove(&k)` on the association list. -/
def removeT (m : List (NetworkTuple × Nat)) (k : NetworkTuple) :
    List (NetworkTuple × Nat) :=
  m.filter (fun e => e.1 ≠ k)

/-- One `select!`-delivered event: the device read resolving to `Err`, the
device read resolving to `Ok(n)` with the first `n` buffer bytes given, or
`pkt_receiver.recv()` yielding an egress packet. -/
inductive Event
  | devReadErr
  | devRead (bytes : List Nat)
  | egress (p : NetworkPacket)

/-- Shared vacant-branch tail: `entry.insert(stream.stream_sender())`
followed by `accept_sender.send(...)?`.  The insert happens before the
send, so a closed acceptor still leaves the fresh entry in the table while
terminating the task. -/
def insertAndPublish (env : Env) (s : LoopState) (t : NetworkTuple)
    (mk : Nat → IpStackStream) : LoopState :=
  let sid := s.nextId
  let s1 := { s with streams := (t, sid) :: s.streams, nextId := sid + 1 }
  if env.acceptOpen then
    { s1 with accepted := s1.accepted ++ [mk sid] }
  else
    { s1 with term := some TermReason.acceptClosed }

/-- One iteration of the orchestration loop of `IpStack::new`, processing
one ready `select!` arm.  A task that has already exited ignores further
events. -/
def step (plat : Platform) (packet_info : Bool) (env : Env)
    (s : LoopState) (ev : Event) : LoopState :=
  if s.term.isSome then s else
  match ev with
  | .devReadErr =>
    -- the arm pattern `Ok(n) = device.read(..)` fails to match: the branch
    -- is disabled for this select call and the loop later retries
    s
  | .devRead bytes =>
    match stripContent (inboundOffset plat packet_info) bytes with
    | none => { s with term := some TermReason.sliceOutOfBounds }
    | some content =>
      match env.parse content with
      | none => s  -- warn!("parse error ..."); continue
      | some packet =>
        match lookupT s.streams packet.network_tuple with
        | some sid =>
          -- Occupied: forward on the session's inbound channel; a failed
          -- send is only logged
          if env.sendOk sid then
            { s with forwarded := s.forwarded ++ [(sid, packet)] }
          else
            s
        | none =>
          -- Vacant: branch on the transport tag
          match packet.transport with
          | .Tcp h =>
            if env.tcpNew packet.src_addr packet.dst_addr h then
              insertAndPublish env s packet.network_tuple IpStackStream.Tcp
            else
              s  -- error!("... create tcp stream failed ...")
          | .Udp =>
            insertAndPublish env s packet.network_tuple IpStackStream.Udp
  | .egress packet =>
    if packet.ttl = 0 then
      { s with streams := removeT s.streams packet.reverse_network_tuple }
    else
      match packet.serialized with
      | none => s  -- trace!("to_bytes error"); continue
      | some packet_byte =>
        let framed := egressPrepend plat packet_info packet.src_addr.isIpv4 packet_byte
        if env.writeOk framed then
          { s with written := s.written ++ [framed] }
        else
          { s with term := some TermReason.writeError }

/-- The loop over a finite trace of delivered events. -/
def runLoop (plat : Platform) (packet_info : Bool) (env : Env)
    (s : LoopState) (evs : List Event) : LoopState :=
  evs.foldl (step plat packet_info env) s

/-- Result of one `IpStack::accept` call against the acceptor channel:
`queue` is the backlog of published, unconsumed sessions and `senderAlive`
whether the loop task (holding `accept_sender`) is still running. -/
inductive AcceptOutcome
  | ok (s : IpStackStream)
  | acceptError
  | pending
deriving DecidableEq

/-- `IpStack::accept`: `recv()` yields queued messages in order even after
the sender is gone, returns `None` — mapped to `Err(AcceptError)` — only on
a closed and drained channel, and otherwise suspends. -/
def accept (queue : List IpStackStream) (senderAlive : Bool) : AcceptOutcome :=
  match queue with
  | st :: _ => .ok st
  | [] => if senderAlive then .pending else .acceptError

/-- The `IpStackStream` variant published for a given transport tag and
inbound-sender id (`IpStackStream::Tcp(stream)` / `IpStackStream::Udp(stream)`). -/
def publishedStream (tr : IpStackPacketProtocol) (sid : Nat) : IpStackStream :=
  match tr with
  | .Tcp _ => .Tcp sid
  | .Udp => .Udp sid

/-- The Session Table maps each tuple to at most one live session: its key
list is duplicate-free. -/
def keysNodup (s : LoopState) : Prop :=
  (s.streams.map Prod.fst).Nodup

/-! Concrete fixtures used to instantiate witnesses and counterexamples. -/

/-- A concrete IPv4 endpoint. -/
def addrA : Addr := ⟨true, 10, 1⟩

/-- A second concrete IPv4 endpoint. -/
def addrB : Addr := ⟨true, 20, 2⟩

/-- The TCP tuple from `addrA` to `addrB`. -/
def tupleAB : NetworkTuple := ⟨Proto.tcp, addrA, addrB⟩

/-- An environment in which every collaborator call succeeds and parsing
always fails (the parse oracle is irrelevant to the uses below). -/
def envAllOk : Env :=
  ⟨fun _ => none, fun _ _ _ => true, fun _ => true, true, fun _ => true⟩

/-- A concrete UDP packet from `addrA` to `addrB` with a live TTL and a
successful serialization. -/
def packetU : NetworkPacket :=
  ⟨addrA, addrB, IpStackPacketProtocol.Udp, [1, 2], 64, some [9, 9]⟩

/-- A sentinel packet (TTL 0) travelling from `addrB` back to `addrA`, so
its reverse tuple is `tupleAB`. -/
def packetSentinel : NetworkPacket :=
  ⟨addrB, addrA, IpStackPacketProtocol.Tcp 0, [], 0, none⟩

/-- A loop state holding one registered session under `tupleAB`. -/
def stateWithAB : LoopState :=
  ⟨[(tupleAB, 0)], 1, [IpStackStream.Tcp 0], [], [], none⟩

/-- An environment that parses every read as `packetU`, succeeds on every
collaborator call, but fails every device write. -/
def envWriteFail : Env :=
  ⟨fun _ => some packetU, fun _ _ _ => true, fun _ => true, true, fun _ => false⟩

/-- The state reached from the initial state after a read that creates and
publishes the `packetU` session, followed by an egress of `packetU` whose
device write fails. -/
def cexRun : LoopState :=
  runLoop Platform.linux false envWriteFail initState
    [Event.devRead [0], Event.egress packetU]

end Ipstack

namespace Ipstack

/-! ## Helper lemmas on the association-list session table -/

theorem lookupT_eq_none_iff (m : List (NetworkTuple × Nat)) (k : NetworkTuple) :
    lookupT m k = none ↔ k ∉ m.map Prod.fst := by
  induction m with
  | nil => simp [lookupT]
  | cons e rest ih =>
    obtain ⟨k1, v⟩ := e
    by_cases h : k1 = k
    · subst h
      simp [lookupT]
    · simp [lookupT, h, ih, Ne.symm h]

theorem lookupT_removeT_self (m : List (NetworkTuple × Nat)) (k : NetworkTuple) :
    lookupT (removeT m k) k = none := by
  induction m with
  | nil => simp [removeT, lookupT]
  | cons e rest ih =>
    obtain ⟨k1, v⟩ := e
    by_cases h : k1 = k
    · subst h
      simpa [removeT, List.filter] using ih
    · simpa [removeT, List.filter, h, lookupT] using ih

theorem lookupT_removeT_ne (m : List (NetworkTuple × Nat)) (k rk : NetworkTuple)
    (h : k ≠ rk) : lookupT (removeT m rk) k = lookupT m k := by
  induction m with
  | nil => simp [removeT, lookupT]
  | cons e rest ih =>
    obtain ⟨k1, v⟩ := e
    by_cases h1 : k1 = rk
    · subst h1
      have : k1 ≠ k := fun hc => h (hc ▸ rfl)
      simpa [removeT, List.filter, lookupT, this] using ih
    · by_cases h2 : k1 = k
      · subst h2
        simp [removeT, List.filter, h1, lookupT]
      · simpa [removeT, List.filter, h1, lookupT, h2] using ih

theorem removeT_removeT (m : List (NetworkTuple × Nat)) (k : NetworkTuple) :
    removeT (removeT m k) k = removeT m k := by
  induction m with
  | nil => simp [removeT]
  | cons e rest ih =>
    by_cases h : e.1 = k
    · simp [removeT, List.filter, h]
    · simp [removeT, List.filter, h]

/-! ## Claim C1: sentinel teardown -/

/-- C1: an egress frame with time-to-live 0 makes the loop remove the
Session Table entry keyed by the frame's reverse network tuple (leaving all
other entries unchanged), write nothing to the device, publish nothing, and
continue; processing the same sentinel a second time leaves the resulting
state unchanged, so removal is idempotent. -/
theorem C1_sentinel_teardown (plat : Platform) (pi : Bool) (env : Env)
    (s : LoopState) (p : NetworkPacket)
    (hlive : s.term = none) (httl : p.ttl = 0) :
    (step plat pi env s (Event.egress p)).streams
        = removeT s.streams p.reverse_network_tuple ∧
    lookupT (step plat pi env s (Event.egress p)).streams p.reverse_network_tuple
        = none ∧
    (∀ k, k ≠ p.reverse_network_tuple →
      lookupT (step plat pi env s (Event.egress p)).streams k
        = lookupT s.streams k) ∧
    (step plat pi env s (Event.egress p)).written = s.written ∧
    (step plat pi env s (Event.egress p)).accepted = s.accepted ∧
    (step plat pi env s (Event.egress p)).term = none ∧
    step plat pi env (step plat pi env s (Event.egress p)) (Event.egress p)
        = step plat pi env s (Event.egress p) := by
  have hs : step plat pi env s (Event.egress p)
      = { s with streams := removeT s.streams p.reverse_network_tuple } := by
    simp [step, hlive, httl]
  refine ⟨by rw [hs], ?_, ?_, by rw [hs], by rw [hs], by rw [hs]; exact hlive, ?_⟩
  · rw [hs]
    exact lookupT_removeT_self s.streams p.reverse_network_tuple
  · intro k hk
    rw [hs]
    exact lookupT_removeT_ne s.streams k p.reverse_network_tuple hk
  · have hs2 : step plat pi env { s with streams := removeT s.streams p.reverse_network_tuple } (Event.egress p)
        = { s with streams := removeT (removeT s.streams p.reverse_network_tuple) p.reverse_network_tuple } := by
      simp [step, hlive, httl]
    rw [hs, hs2, removeT_removeT]

/-- Witness for C1 at a concrete table and sentinel packet. -/
theorem C1_sentinel_teardown_witness :
    stateWithAB.term = none ∧ packetSentinel.ttl = 0 ∧
    ((step Platform.linux true envAllOk stateWithAB (Event.egress packetSentinel)).streams
        = removeT stateWithAB.streams packetSentinel.reverse_network_tuple ∧
     lookupT (step Platform.linux true envAllOk stateWithAB (Event.egress packetSentinel)).streams
        packetSentinel.reverse_network_tuple = none ∧
     (∀ k, k ≠ packetSentinel.reverse_network_tuple →
       lookupT (step Platform.linux true envAllOk stateWithAB (Event.egress packetSentinel)).streams k
         = lookupT stateWithAB.streams k) ∧
     (step Platform.linux true envAllOk stateWithAB (Event.egress packetSentinel)).written
        = stateWithAB.written ∧
     (step Platform.linux true envAllOk stateWithAB (Event.egress packetSentinel)).accepted
        = stateWithAB.accepted ∧
     (step Platform.linux true envAllOk stateWithAB (Event.egress packetSentinel)).term = none ∧
     step Platform.linux true envAllOk
        (step Platform.linux true envAllOk stateWithAB (Event.egress packetSentinel))
        (Event.egress packetSentinel)
       = step Platform.linux true envAllOk stateWithAB (Event.egress packetSentinel)) :=
  ⟨rfl, rfl, C1_sentinel_teardown Platform.linux true envAllOk stateWithAB packetSentinel rfl rfl⟩

/-! ## General lemmas about one loop iteration -/

theorem lookupT_cons_preserved (m : List (NetworkTuple × Nat)) (t : NetworkTuple)
    (n : Nat) (k : NetworkTuple) (v : Nat)
    (hkv : lookupT m k = some v) (hvac : lookupT m t = none) :
    lookupT ((t, n) :: m) k = some v := by
  have hne : t ≠ k := by
    intro h
    subst h
    rw [hkv] at hvac
    exact Option.noConfusion hvac
  simp [lookupT, hne, hkv]

/-- Every event other than a sentinel egress frame leaves each existing
table binding intact: only the sentinel path removes entries, and no path
replaces a binding in place. -/
theorem streams_no_remove (plat : Platform) (pi : Bool) (env : Env)
    (s : LoopState) (ev : Event)
    (hns : ∀ p, ev = Event.egress p → p.ttl ≠ 0)
    (k : NetworkTuple) (v : Nat) (hkv : lookupT s.streams k = some v) :
    lookupT (step plat pi env s ev).streams k = some v := by
  cases hterm : s.term with
  | some r => simp [step, hterm, hkv]
  | none =>
    cases ev with
    | devReadErr => simp [step, hterm, hkv]
    | devRead bytes =>
      cases hsc : stripContent (inboundOffset plat pi) bytes with
      | none => simp [step, hterm, hsc, hkv]
      | some content =>
        cases hp : env.parse content with
        | none => simp [step, hterm, hsc, hp, hkv]
        | some packet =>
          cases hl : lookupT s.streams packet.network_tuple with
          | some sid =>
            by_cases hsend : env.sendOk sid <;>
              simp [step, hterm, hsc, hp, hl, hsend, hkv]
          | none =>
            cases htr : packet.transport with
            | Tcp hd =>
              by_cases htn : env.tcpNew packet.src_addr packet.dst_addr hd
              · by_cases hao : env.acceptOpen <;>
                  · simp [step, hterm, hsc, hp, hl, htr, htn, insertAndPublish, hao]
                    exact lookupT_cons_preserved s.streams packet.network_tuple
                      s.nextId k v hkv hl
              · simp [step, hterm, hsc, hp, hl, htr, htn, hkv]
            | Udp =>
              by_cases hao : env.acceptOpen <;>
                · simp [step, hterm, hsc, hp, hl, htr, insertAndPublish, hao]
                  exact lookupT_cons_preserved s.streams packet.network_tuple
                    s.nextId k v hkv hl
    | egress p =>
      have httl : p.ttl ≠ 0 := hns p rfl
      cases hser : p.serialized with
      | none => simp [step, hterm, httl, hser, hkv]
      | some pb =>
        by_cases hw : env.writeOk (egressPrepend plat pi p.src_addr.isIpv4 pb) <;>
          simp [step, hterm, httl, hser, hw, hkv]

theorem insertAndPublish_open (env : Env) (s : LoopState) (t : NetworkTuple)
    (mk : Nat → IpStackStream) (hao : env.acceptOpen = true) :
    insertAndPublish env s t mk
      = { s with streams := (t, s.nextId) :: s.streams, nextId := s.nextId + 1,
                 accepted := s.accepted ++ [mk s.nextId] } := by
  simp [insertAndPublish, hao]

theorem insertAndPublish_closed (env : Env) (s : LoopState) (t : NetworkTuple)
    (mk : Nat → IpStackStream) (hao : env.acceptOpen = false) :
    insertAndPublish env s t mk
      = { s with streams := (t, s.nextId) :: s.streams, nextId := s.nextId + 1,
                 term := some TermReason.acceptClosed } := by
  simp [insertAndPublish, hao]

/-! ## Claim C4: loop termination conditions -/

/-- C4 counterexample: a device read error does not terminate the loop.
The select arm is guarded by the pattern `Ok(n) = device.read(..)`, so an
`Err` result merely fails the pattern and disables that arm for the current
select call; the loop state is unchanged and the task stays alive,
contradicting the claim that a read error propagates out of the loop. -/
theorem C4_read_error_skipped :
    step Platform.linux true envAllOk initState Event.devReadErr = initState ∧
    (step Platform.linux true envAllOk initState Event.devReadErr).term = none :=
  ⟨rfl, rfl⟩

/-- C4 (amended): a device read error is silently skipped (the arm pattern
fails and the state is unchanged); the loop task exits only through a
device write error, through a dropped acceptor receiver discovered while
publishing a new session, or through the out-of-bounds inbound slice panic
on a read shorter than the framing offset. -/
theorem C4_termination_conditions (plat : Platform) (pi : Bool) (env : Env)
    (s : LoopState) (ev : Event) (hlive : s.term = none) :
    step plat pi env s Event.devReadErr = s ∧
    (∀ r, (step plat pi env s ev).term = some r →
      (r = TermReason.writeError ∧ ∃ p, ev = Event.egress p ∧ p.ttl ≠ 0) ∨
      (r = TermReason.sliceOutOfBounds ∧ ∃ b, ev = Event.devRead b ∧
        stripContent (inboundOffset plat pi) b = none) ∨
      (r = TermReason.acceptClosed ∧ env.acceptOpen = false ∧
        ∃ b, ev = Event.devRead b)) := by
  refine ⟨by simp [step, hlive], ?_⟩
  intro r hr
  cases ev with
  | devReadErr =>
    rw [show step plat pi env s Event.devReadErr = s from by simp [step, hlive]] at hr
    rw [hlive] at hr
    exact Option.noConfusion hr
  | devRead bytes =>
    cases hsc : stripContent (inboundOffset plat pi) bytes with
    | none =>
      rw [show step plat pi env s (Event.devRead bytes)
            = { s with term := some TermReason.sliceOutOfBounds } from by
          simp [step, hlive, hsc]] at hr
      injection hr with hr1
      exact Or.inr (Or.inl ⟨hr1.symm, bytes, rfl, hsc⟩)
    | some content =>
      cases hp : env.parse content with
      | none =>
        rw [show step plat pi env s (Event.devRead bytes) = s from by
          simp [step, hlive, hsc, hp]] at hr
        rw [hlive] at hr
        exact Option.noConfusion hr
      | some packet =>
        cases hl : lookupT s.streams packet.network_tuple with
        | some sid =>
          by_cases hsend : env.sendOk sid
          · rw [show step plat pi env s (Event.devRead bytes)
                  = { s with forwarded := s.forwarded ++ [(sid, packet)] } from by
              simp [step, hlive, hsc, hp, hl, hsend]] at hr
            rw [show ({ s with forwarded := s.forwarded ++ [(sid, packet)] } : LoopState).term
                  = s.term from rfl, hlive] at hr
            exact Option.noConfusion hr
          · rw [show step plat pi env s (Event.devRead bytes) = s from by
              simp [step, hlive, hsc, hp, hl, hsend]] at hr
            rw [hlive] at hr
            exact Option.noConfusion hr
        | none =>
          cases hao : env.acceptOpen with
          | true =>
            have hterm2 : ∀ t mk, (insertAndPublish env s t mk).term = none := by
              intro t mk
              rw [insertAndPublish_open env s t mk hao]
              exact hlive
            cases htr : packet.transport with
            | Tcp hd =>
              by_cases htn : env.tcpNew packet.src_addr packet.dst_addr hd
              · rw [show step plat pi env s (Event.devRead bytes)
                      = insertAndPublish env s packet.network_tuple IpStackStream.Tcp from by
                  simp [step, hlive, hsc, hp, hl, htr, htn]] at hr
                rw [hterm2 packet.network_tuple IpStackStream.Tcp] at hr
                exact Option.noConfusion hr
              · rw [show step plat pi env s (Event.devRead bytes) = s from by
                  simp [step, hlive, hsc, hp, hl, htr, htn]] at hr
                rw [hlive] at hr
                exact Option.noConfusion hr
            | Udp =>
              rw [show step plat pi env s (Event.devRead bytes)
                    = insertAndPublish env s packet.network_tuple IpStackStream.Udp from by
                simp [step, hlive, hsc, hp, hl, htr]] at hr
              rw [hterm2 packet.network_tuple IpStackStream.Udp] at hr
              exact Option.noConfusion hr
          | false =>
            have hterm2 : ∀ t mk, (insertAndPublish env s t mk).term
                = some TermReason.acceptClosed := by
              intro t mk
              rw [insertAndPublish_closed env s t mk hao]
            cases htr : packet.transport with
            | Tcp hd =>
              by_cases htn : env.tcpNew packet.src_addr packet.dst_addr hd
              · rw [show step plat pi env s (Event.devRead bytes)
                      = insertAndPublish env s packet.network_tuple IpStackStream.Tcp from by
                  simp [step, hlive, hsc, hp, hl, htr, htn]] at hr
                rw [hterm2 packet.network_tuple IpStackStream.Tcp] at hr
                injection hr with hr1
                exact Or.inr (Or.inr ⟨hr1.symm, rfl, bytes, rfl⟩)
              · rw [show step plat pi env s (Event.devRead bytes) = s from by
                  simp [step, hlive, hsc, hp, hl, htr, htn]] at hr
                rw [hlive] at hr
                exact Option.noConfusion hr
            | Udp =>
              rw [show step plat pi env s (Event.devRead bytes)
                    = insertAndPublish env s packet.network_tuple IpStackStream.Udp from by
                simp [step, hlive, hsc, hp, hl, htr]] at hr
              rw [hterm2 packet.network_tuple IpStackStream.Udp] at hr
              injection hr with hr1
              exact Or.inr (Or.inr ⟨hr1.symm, rfl, bytes, rfl⟩)
  | egress p =>
    by_cases httl : p.ttl = 0
    · rw [show step plat pi env s (Event.egress p)
            = { s with streams := removeT s.streams p.reverse_network_tuple } from by
        simp [step, hlive, httl]] at hr
      rw [show ({ s with streams := removeT s.streams p.reverse_network_tuple } : LoopState).term
            = s.term from rfl, hlive] at hr
      exact Option.noConfusion hr
    · cases hser : p.serialized with
      | none =>
        rw [show step plat pi env s (Event.egress p) = s from by
          simp [step, hlive, httl, hser]] at hr
        rw [hlive] at hr
        exact Option.noConfusion hr
      | some pb =>
        by_cases hw : env.writeOk (egressPrepend plat pi p.src_addr.isIpv4 pb)
        · rw [show step plat pi env s (Event.egress p)
                = { s with written := s.written
                    ++ [egressPrepend plat pi p.src_addr.isIpv4 pb] } from by
            simp [step, hlive, httl, hser, hw]] at hr
          rw [show ({ s with written := s.written
                ++ [egressPrepend plat pi p.src_addr.isIpv4 pb] } : LoopState).term
              = s.term from rfl, hlive] at hr
          exact Option.noConfusion hr
        · rw [show step plat pi env s (Event.egress p)
                = { s with term := some TermReason.writeError } from by
            simp [step, hlive, httl, hser, hw]] at hr
          injection hr with hr1
          exact Or.inl ⟨hr1.symm, p, rfl, httl⟩

/-- Witness for C4 (amended): the skip of a read error and the
characterisation of an actual exit, at a concrete write-failing egress
event. -/
theorem C4_termination_conditions_witness :
    initState.term = none ∧
    (step Platform.linux false envWriteFail initState Event.devReadErr = initState ∧
     (∀ r, (step Platform.linux false envWriteFail initState (Event.egress packetU)).term
          = some r →
       (r = TermReason.writeError ∧
          ∃ p, Event.egress packetU = Event.egress p ∧ p.ttl ≠ 0) ∨
       (r = TermReason.sliceOutOfBounds ∧
          ∃ b, Event.egress packetU = Event.devRead b ∧
            stripContent (inboundOffset Platform.linux false) b = none) ∨
       (r = TermReason.acceptClosed ∧ Env.acceptOpen envWriteFail = false ∧
          ∃ b, Event.egress packetU = Event.devRead b))) :=
  ⟨rfl, C4_termination_conditions Platform.linux false envWriteFail initState
    (Event.egress packetU) rfl⟩

/-! ## Claim C8: transient per-frame failures are dropped -/

/-- C8: an inbound byte sequence that fails to parse, and an egress frame
whose serialization fails, are each dropped with the loop state completely
unchanged: no table entry created or removed, nothing published, nothing
written, and the loop does not terminate. -/
theorem C8_transient_failures_dropped (plat : Platform) (pi : Bool) (env : Env)
    (s : LoopState) (hlive : s.term = none) :
    (∀ bytes content,
      stripContent (inboundOffset plat pi) bytes = some content →
      env.parse content = none →
      step plat pi env s (Event.devRead bytes) = s) ∧
    (∀ p, p.ttl ≠ 0 → p.serialized = none →
      step plat pi env s (Event.egress p) = s) := by
  constructor
  · intro bytes content hsc hp
    simp [step, hlive, hsc, hp]
  · intro p httl hser
    simp [step, hlive, httl, hser]

/-- Witness for C8: unparseable read bytes and an unserializable egress
frame leave a concrete state unchanged. -/
theorem C8_transient_failures_dropped_witness :
    stateWithAB.term = none ∧
    ((∀ bytes content,
      stripContent (inboundOffset Platform.linux true) bytes = some content →
      Env.parse envAllOk content = none →
      step Platform.linux true envAllOk stateWithAB (Event.devRead bytes) = stateWithAB) ∧
     (∀ p, p.ttl ≠ 0 → p.serialized = none →
      step Platform.linux true envAllOk stateWithAB (Event.egress p) = stateWithAB)) :=
  ⟨rfl, C8_transient_failures_dropped Platform.linux true envAllOk stateWithAB rfl⟩

/-! ## Claim C9: failed inbound forward leaves the table untouched -/

/-- C9: when an inbound frame hits an existing entry and the forward on
that session's inbound channel fails (receiver gone), the frame is dropped
and the whole state — in particular the Session Table, stale entry
included — is unchanged; and no event other than a sentinel egress frame
ever removes or replaces a table binding. -/
theorem C9_stale_entry_kept (plat : Platform) (pi : Bool) (env : Env)
    (s : LoopState) (bytes content : List Nat) (packet : NetworkPacket) (sid : Nat)
    (hlive : s.term = none)
    (hsc : stripContent (inboundOffset plat pi) bytes = some content)
    (hp : env.parse content = some packet)
    (hhit : lookupT s.streams packet.network_tuple = some sid)
    (hsend : env.sendOk sid = false) :
    step plat pi env s (Event.devRead bytes) = s ∧
    (∀ ev, (∀ q, ev = Event.egress q → q.ttl ≠ 0) →
      ∀ k v, lookupT s.streams k = some v →
        lookupT (step plat pi env s ev).streams k = some v) := by
  constructor
  · simp [step, hlive, hsc, hp, hhit, hsend]
  · intro ev hns k v hkv
    exact streams_no_remove plat pi env s ev hns k v hkv

/-- Witness for C9: a frame for the registered tuple whose session receiver
is gone is dropped with the concrete state unchanged. -/
theorem C9_stale_entry_kept_witness :
    stateWithAB.term = none ∧
    stripContent (inboundOffset Platform.linux false) [7] = some [7] ∧
    Env.parse (Env.mk (fun _ => some (NetworkPacket.mk addrA addrB (IpStackPacketProtocol.Tcp 0) [] 64 none))
        (fun _ _ _ => true) (fun _ => false) true (fun _ => true)) [7]
      = some (NetworkPacket.mk addrA addrB (IpStackPacketProtocol.Tcp 0) [] 64 none) ∧
    lookupT stateWithAB.streams
        (NetworkPacket.mk addrA addrB (IpStackPacketProtocol.Tcp 0) [] 64 none).network_tuple
      = some 0 ∧
    Env.sendOk (Env.mk (fun _ => some (NetworkPacket.mk addrA addrB (IpStackPacketProtocol.Tcp 0) [] 64 none))
        (fun _ _ _ => true) (fun _ => false) true (fun _ => true)) 0 = false ∧
    (step Platform.linux false
        (Env.mk (fun _ => some (NetworkPacket.mk addrA addrB (IpStackPacketProtocol.Tcp 0) [] 64 none))
          (fun _ _ _ => true) (fun _ => false) true (fun _ => true))
        stateWithAB (Event.devRead [7]) = stateWithAB ∧
     (∀ ev, (∀ q, ev = Event.egress q → q.ttl ≠ 0) →
       ∀ k v, lookupT stateWithAB.streams k = some v →
         lookupT (step Platform.linux false
            (Env.mk (fun _ => some (NetworkPacket.mk addrA addrB (IpStackPacketProtocol.Tcp 0) [] 64 none))
              (fun _ _ _ => true) (fun _ => false) true (fun _ => true))
            stateWithAB ev).streams k = some v)) :=
  ⟨rfl, rfl, rfl, by decide, rfl,
    C9_stale_entry_kept Platform.linux false _ stateWithAB [7] [7] _ 0
      rfl rfl rfl (by decide) rfl⟩

/-! ## Claim C2: at most one live session per tuple -/

theorem insertAndPublish_keysNodup (env : Env) (s : LoopState) (t : NetworkTuple)
    (mk : Nat → IpStackStream) (hvac : lookupT s.streams t = none)
    (h : keysNodup s) : keysNodup (insertAndPublish env s t mk) := by
  have hnotin : t ∉ s.streams.map Prod.fst :=
    (lookupT_eq_none_iff s.streams t).mp hvac
  have hcons : (((t, s.nextId) :: s.streams).map Prod.fst).Nodup := by
    rw [List.map_cons]
    exact List.nodup_cons.mpr ⟨hnotin, h⟩
  cases hao : env.acceptOpen with
  | true =>
    rw [insertAndPublish_open env s t mk hao]
    exact hcons
  | false =>
    rw [insertAndPublish_closed env s t mk hao]
    exact hcons

theorem step_preserves_keysNodup (plat : Platform) (pi : Bool) (env : Env)
    (s : LoopState) (ev : Event) (h : keysNodup s) :
    keysNodup (step plat pi env s ev) := by
  cases hterm : s.term with
  | some r => simpa [step, hterm] using h
  | none =>
    cases ev with
    | devReadErr => simpa [step, hterm] using h
    | devRead bytes =>
      cases hsc : stripContent (inboundOffset plat pi) bytes with
      | none => simpa [step, hterm, hsc, keysNodup] using h
      | some content =>
        cases hp : env.parse content with
        | none => simpa [step, hterm, hsc, hp] using h
        | some packet =>
          cases hl : lookupT s.streams packet.network_tuple with
          | some sid =>
            by_cases hsend : env.sendOk sid <;>
              simpa [step, hterm, hsc, hp, hl, hsend, keysNodup] using h
          | none =>
            cases htr : packet.transport with
            | Tcp hd =>
              by_cases htn : env.tcpNew packet.src_addr packet.dst_addr hd
              · have hstep : step plat pi env s (Event.devRead bytes)
                    = insertAndPublish env s packet.network_tuple IpStackStream.Tcp := by
                  simp [step, hterm, hsc, hp, hl, htr, htn]
                rw [hstep]
                exact insertAndPublish_keysNodup env s packet.network_tuple
                  IpStackStream.Tcp hl h
              · simpa [step, hterm, hsc, hp, hl, htr, htn] using h
            | Udp =>
              have hstep : step plat pi env s (Event.devRead bytes)
                  = insertAndPublish env s packet.network_tuple IpStackStream.Udp := by
                simp [step, hterm, hsc, hp, hl, htr]
              rw [hstep]
              exact insertAndPublish_keysNodup env s packet.network_tuple
                IpStackStream.Udp hl h
    | egress p =>
      by_cases httl : p.ttl = 0
      · have hstep : step plat pi env s (Event.egress p)
            = { s with streams := removeT s.streams p.reverse_network_tuple } := by
          simp [step, hterm, httl]
        rw [hstep]
        exact List.Nodup.sublist
          (List.Sublist.map Prod.fst (List.filter_sublist s.streams)) h
      · cases hser : p.serialized with
        | none => simpa [step, hterm, httl, hser] using h
        | some pb =>
          by_cases hw : env.writeOk (egressPrepend plat pi p.src_addr.isIpv4 pb) <;>
            simpa [step, hterm, httl, hser, hw, keysNodup] using h

theorem runLoop_preserves_keysNodup (plat : Platform) (pi : Bool) (env : Env)
    (evs : List Event) :
    ∀ s, keysNodup s → keysNodup (runLoop plat pi env s evs) := by
  induction evs with
  | nil =>
    intro s h
    simpa [runLoop] using h
  | cons e rest ih =>
    intro s h
    simpa [runLoop] using
      ih (step plat pi env s e) (step_preserves_keysNodup plat pi env s e h)

/-- C2: over every trace of events from the initial state the Session Table
maps each tuple to at most one session (its key list stays duplicate-free),
and no step ever replaces an existing binding in place: a binding present
before a step is either still present with the same sender afterwards or
has been removed. -/
theorem C2_tuple_uniqueness (plat : Platform) (pi : Bool) (env : Env)
    (evs : List Event) :
    keysNodup (runLoop plat pi env initState evs) ∧
    (∀ s ev k v, lookupT s.streams k = some v →
      lookupT (step plat pi env s ev).streams k = some v ∨
      lookupT (step plat pi env s ev).streams k = none) := by
  constructor
  · exact runLoop_preserves_keysNodup plat pi env evs initState
      (by simp [keysNodup, initState])
  · intro s ev k v hkv
    by_cases hns : ∀ q, ev = Event.egress q → q.ttl ≠ 0
    · exact Or.inl (streams_no_remove plat pi env s ev hns k v hkv)
    · push_neg at hns
      obtain ⟨q, hq, httl⟩ := hns
      subst hq
      cases hterm : s.term with
      | some r =>
        refine Or.inl ?_
        simpa [step, hterm] using hkv
      | none =>
        have hstep : step plat pi env s (Event.egress q)
            = { s with streams := removeT s.streams q.reverse_network_tuple } := by
          simp [step, hterm, httl]
        rw [hstep]
        by_cases hk : k = q.reverse_network_tuple
        · rw [hk]
          exact Or.inr (lookupT_removeT_self s.streams q.reverse_network_tuple)
        · refine Or.inl ?_
          rw [lookupT_removeT_ne s.streams k q.reverse_network_tuple hk]
          exact hkv

/-- Witness for C2: the invariant holds after a concrete creating trace,
and a concrete existing binding survives or disappears across a concrete
step. -/
theorem C2_tuple_uniqueness_witness :
    keysNodup (runLoop Platform.linux false envWriteFail initState [Event.devRead [0]]) ∧
    (lookupT (step Platform.linux true envAllOk stateWithAB
        (Event.egress packetSentinel)).streams tupleAB = some 0 ∨
     lookupT (step Platform.linux true envAllOk stateWithAB
        (Event.egress packetSentinel)).streams tupleAB = none) :=
  ⟨(C2_tuple_uniqueness Platform.linux false envWriteFail [Event.devRead [0]]).1,
   (C2_tuple_uniqueness Platform.linux true envAllOk []).2
     stateWithAB (Event.egress packetSentinel) tupleAB 0 rfl⟩

/-! ## Claim C3: lazy session creation on the vacant branch -/

/-- C3: with the acceptor open, an inbound frame whose forward tuple is
vacant creates, registers and publishes a session exactly when it is TCP
with succeeding session construction or UDP; a TCP frame whose construction
fails leaves the state entirely unchanged (no entry, no publication). -/
theorem C3_lazy_creation (plat : Platform) (pi : Bool) (env : Env)
    (s : LoopState) (bytes content : List Nat) (packet : NetworkPacket)
    (hlive : s.term = none)
    (hsc : stripContent (inboundOffset plat pi) bytes = some content)
    (hp : env.parse content = some packet)
    (hvac : lookupT s.streams packet.network_tuple = none)
    (hacc : env.acceptOpen = true) :
    ((lookupT (step plat pi env s (Event.devRead bytes)).streams packet.network_tuple
        = some s.nextId ∧
      (step plat pi env s (Event.devRead bytes)).accepted
        = s.accepted ++ [publishedStream packet.transport s.nextId])
      ↔ (packet.transport = IpStackPacketProtocol.Udp ∨
         ∃ hd, packet.transport = IpStackPacketProtocol.Tcp hd ∧
           env.tcpNew packet.src_addr packet.dst_addr hd = true)) ∧
    (∀ hd, packet.transport = IpStackPacketProtocol.Tcp hd →
      env.tcpNew packet.src_addr packet.dst_addr hd = false →
      step plat pi env s (Event.devRead bytes) = s) := by
  cases htr : packet.transport with
  | Tcp hd =>
    by_cases htn : env.tcpNew packet.src_addr packet.dst_addr hd
    · have hstep : step plat pi env s (Event.devRead bytes)
          = insertAndPublish env s packet.network_tuple IpStackStream.Tcp := by
        simp [step, hlive, hsc, hp, hvac, htr, htn]
      constructor
      · rw [hstep, insertAndPublish_open env s packet.network_tuple IpStackStream.Tcp hacc]
        refine iff_of_true ⟨?_, ?_⟩ (Or.inr ⟨hd, rfl, htn⟩)
        · simp [lookupT]
        · simp [publishedStream]
      · intro hd1 htr1 htn1
        injection htr1 with h1
        rw [← h1] at htn1
        rw [htn] at htn1
        exact Bool.noConfusion htn1
    · have hstep : step plat pi env s (Event.devRead bytes) = s := by
        simp [step, hlive, hsc, hp, hvac, htr, htn]
      constructor
      · rw [hstep]
        refine iff_of_false ?_ ?_
        · intro hcr
          obtain ⟨h1, _⟩ := hcr
          rw [hvac] at h1
          exact Option.noConfusion h1
        · rintro (hudp | ⟨hd1, htr1, htn1⟩)
          · exact IpStackPacketProtocol.noConfusion hudp
          · injection htr1 with h1
            rw [← h1] at htn1
            exact htn htn1
      · intro _ _ _
        exact hstep
  | Udp =>
    have hstep : step plat pi env s (Event.devRead bytes)
        = insertAndPublish env s packet.network_tuple IpStackStream.Udp := by
      simp [step, hlive, hsc, hp, hvac, htr]
    constructor
    · rw [hstep, insertAndPublish_open env s packet.network_tuple IpStackStream.Udp hacc]
      refine iff_of_true ⟨?_, ?_⟩ (Or.inl rfl)
      · simp [lookupT]
      · simp [publishedStream]
    · intro hd1 htr1 _
      exact IpStackPacketProtocol.noConfusion htr1

/-- Witness for C3: a first UDP datagram on a vacant tuple creates,
registers and publishes a session in the concrete environment. -/
theorem C3_lazy_creation_witness :
    initState.term = none ∧
    stripContent (inboundOffset Platform.linux false) [0] = some [0] ∧
    Env.parse envWriteFail [0] = some packetU ∧
    lookupT initState.streams packetU.network_tuple = none ∧
    Env.acceptOpen envWriteFail = true ∧
    (((lookupT (step Platform.linux false envWriteFail initState
          (Event.devRead [0])).streams packetU.network_tuple
        = some initState.nextId ∧
      (step Platform.linux false envWriteFail initState (Event.devRead [0])).accepted
        = initState.accepted ++ [publishedStream packetU.transport initState.nextId])
      ↔ (packetU.transport = IpStackPacketProtocol.Udp ∨
         ∃ hd, packetU.transport = IpStackPacketProtocol.Tcp hd ∧
           Env.tcpNew envWriteFail packetU.src_addr packetU.dst_addr hd = true)) ∧
     (∀ hd, packetU.transport = IpStackPacketProtocol.Tcp hd →
       Env.tcpNew envWriteFail packetU.src_addr packetU.dst_addr hd = false →
       step Platform.linux false envWriteFail initState (Event.devRead [0]) = initState)) :=
  ⟨rfl, rfl, rfl, rfl, rfl,
    C3_lazy_creation Platform.linux false envWriteFail initState [0] [0] packetU
      rfl rfl rfl rfl rfl⟩

/-! ## Claim C5: write failure and the acceptor -/

/-- C5 counterexample: after a device write failure terminates the loop, an
accept call does not necessarily return the terminal error: a session
published before the failure is still buffered in the unbounded acceptor
channel and is returned first. -/
theorem C5_buffered_session_survives_write_failure :
    cexRun.term = some TermReason.writeError ∧
    accept cexRun.accepted false = AcceptOutcome.ok (IpStackStream.Udp 0) ∧
    accept cexRun.accepted false ≠ AcceptOutcome.acceptError := by
  refine ⟨rfl, rfl, ?_⟩
  intro h
  exact AcceptOutcome.noConfusion h

/-- C5 (amended): a device write failure during the egress path terminates
the orchestration loop; a subsequent accept call returns the sessions still
buffered in the acceptor queue, in publication order, and returns the
terminal acceptor-closed error once that queue is drained; while the loop
is alive, accept suspends when nothing is pending and otherwise returns the
next published session tagged by transport kind. -/
theorem C5_write_failure_terminates (plat : Platform) (pi : Bool) (env : Env)
    (s : LoopState) (p : NetworkPacket) (pb : List Nat)
    (hlive : s.term = none) (httl : p.ttl ≠ 0) (hser : p.serialized = some pb)
    (hw : env.writeOk (egressPrepend plat pi p.src_addr.isIpv4 pb) = false) :
    (step plat pi env s (Event.egress p)).term = some TermReason.writeError ∧
    accept [] false = AcceptOutcome.acceptError ∧
    (∀ st rest alive, accept (st :: rest) alive = AcceptOutcome.ok st) ∧
    accept [] true = AcceptOutcome.pending := by
  refine ⟨?_, rfl, fun st rest alive => rfl, rfl⟩
  simp [step, hlive, httl, hser, hw]

/-- Witness for C5 (amended) at a concrete failing write. -/
theorem C5_write_failure_terminates_witness :
    initState.term = none ∧ packetU.ttl ≠ 0 ∧ packetU.serialized = some [9, 9] ∧
    Env.writeOk envWriteFail
      (egressPrepend Platform.linux false packetU.src_addr.isIpv4 [9, 9]) = false ∧
    ((step Platform.linux false envWriteFail initState (Event.egress packetU)).term
        = some TermReason.writeError ∧
     accept [] false = AcceptOutcome.acceptError ∧
     (∀ st rest alive, accept (st :: rest) alive = AcceptOutcome.ok st) ∧
     accept [] true = AcceptOutcome.pending) :=
  ⟨rfl, by decide, rfl, rfl,
    C5_write_failure_terminates Platform.linux false envWriteFail initState packetU [9, 9]
      rfl (by decide) rfl rfl⟩

/-! ## Claim C6: strip offset and platform framing bytes -/

/-- C6: the inbound strip offset is 4 exactly when packet-info mode is set
and the target is not windows, else 0; in packet-info mode the buffer
written for an egress frame is the serialized frame prefixed by flag bytes
0x0000 and the protocol-family tag selected by the source address family —
0x0800 / 0x86DD on linux, 0x0002 for both families on macos — and no header
is prepended on windows. -/
theorem C6_offset_and_framing (plat : Platform) (pi v4 : Bool) (pb : List Nat) :
    inboundOffset plat pi = (if pi = true ∧ plat ≠ Platform.windows then 4 else 0) ∧
    egressPrepend Platform.linux true v4 pb
      = [0x00, 0x00] ++ (if v4 = true then [0x08, 0x00] else [0x86, 0xdd]) ++ pb ∧
    egressPrepend Platform.macos true v4 pb = [0x00, 0x00] ++ [0x00, 0x02] ++ pb ∧
    egressPrepend Platform.windows pi v4 pb = pb ∧
    egressPrepend plat false v4 pb = pb ∧
    (∀ env s p, s.term = none → p.ttl ≠ 0 → p.serialized = some pb →
      Env.writeOk env (egressPrepend plat pi p.src_addr.isIpv4 pb) = true →
      (step plat pi env s (Event.egress p)).written
        = s.written ++ [egressPrepend plat pi p.src_addr.isIpv4 pb]) := by
  refine ⟨?_, ?_, ?_, ?_, ?_, ?_⟩
  · cases plat <;> cases pi <;> simp [inboundOffset]
  · cases v4 <;> rfl
  · cases v4 <;> rfl
  · rfl
  · cases plat <;> rfl
  · intro env s p hlive httl hser hw
    simp [step, hlive, httl, hser, hw]

/-- Witness for C6: a concrete successful egress write appends the framed
buffer. -/
theorem C6_offset_and_framing_witness :
    initState.term = none ∧ packetU.ttl ≠ 0 ∧ packetU.serialized = some [9, 9] ∧
    Env.writeOk envAllOk
      (egressPrepend Platform.linux true packetU.src_addr.isIpv4 [9, 9]) = true ∧
    (step Platform.linux true envAllOk initState (Event.egress packetU)).written
      = initState.written ++ [egressPrepend Platform.linux true packetU.src_addr.isIpv4 [9, 9]] :=
  ⟨rfl, by decide, rfl, rfl,
    (C6_offset_and_framing Platform.linux true true [9, 9]).2.2.2.2.2
      envAllOk initState packetU rfl (by decide) rfl rfl⟩

/-! ## Claim C7: framing round-trip -/

theorem stripContent_four (a b c d : Nat) (rest : List Nat) :
    stripContent 4 (a :: b :: c :: d :: rest) = some rest := by
  unfold stripContent
  rw [if_pos (by simp only [List.length_cons]; omega)]
  rfl

/-- C7 counterexample: macos requires packet-info framing, yet its IPv4 and
IPv6 protocol-family tags coincide (both 0x0002), so the prepended tag is
not distinct per address family there: an IPv4 frame and an IPv6 frame with
the same serialized bytes yield identical framed buffers. -/
theorem C7_macos_tags_coincide :
    TUN_PROTO_IP4 Platform.macos = TUN_PROTO_IP6 Platform.macos ∧
    egressPrepend Platform.macos true true [9]
      = egressPrepend Platform.macos true false [9] ∧
    TUN_PROTO_IP4 Platform.linux ≠ TUN_PROTO_IP6 Platform.linux := by
  refine ⟨rfl, rfl, ?_⟩
  decide

/-- C7 (amended): on a packet-info platform, stripping a well-formed framed
buffer — flag bytes, then the platform tag for the contained frame's
address family, then the IP bytes — and prepending the header for that
family restores the buffer exactly; the prepended tag is the platform
constant selected by the frame's address family, distinct per family on
linux but identical for both families on macos. -/
theorem C7_framing_round_trip (plat : Platform) (v4 : Bool) (rest : List Nat)
    (hplat : plat ≠ Platform.windows) :
    stripContent (inboundOffset plat true)
        (TUN_FLAGS ++ (if v4 then TUN_PROTO_IP4 plat else TUN_PROTO_IP6 plat) ++ rest)
      = some rest ∧
    egressPrepend plat true v4 rest
      = TUN_FLAGS ++ (if v4 then TUN_PROTO_IP4 plat else TUN_PROTO_IP6 plat) ++ rest ∧
    TUN_PROTO_IP4 Platform.linux ≠ TUN_PROTO_IP6 Platform.linux ∧
    TUN_PROTO_IP4 Platform.macos = TUN_PROTO_IP6 Platform.macos := by
  cases plat with
  | windows => exact absurd rfl hplat
  | linux =>
    exact ⟨by cases v4 <;> exact stripContent_four _ _ _ _ rest,
           by cases v4 <;> rfl, by decide, rfl⟩
  | macos =>
    exact ⟨by cases v4 <;> exact stripContent_four _ _ _ _ rest,
           by cases v4 <;> rfl, by decide, rfl⟩

/-- Witness for C7 (amended) on linux with a concrete IPv4 payload. -/
theorem C7_framing_round_trip_witness :
    Platform.linux ≠ Platform.windows ∧
    (stripContent (inboundOffset Platform.linux true)
        (TUN_FLAGS ++ (if true then TUN_PROTO_IP4 Platform.linux
            else TUN_PROTO_IP6 Platform.linux) ++ [7])
      = some [7] ∧
     egressPrepend Platform.linux true true [7]
      = TUN_FLAGS ++ (if true then TUN_PROTO_IP4 Platform.linux
            else TUN_PROTO_IP6 Platform.linux) ++ [7] ∧
     TUN_PROTO_IP4 Platform.linux ≠ TUN_PROTO_IP6 Platform.linux ∧
     TUN_PROTO_IP4 Platform.macos = TUN_PROTO_IP6 Platform.macos) :=
  ⟨by decide, C7_framing_round_trip Platform.linux true [7] (by decide)⟩

/-! ## Claim C10: the inbound slice on short reads -/

/-- C10 counterexample: with packet-info mode on a non-windows target the
configured offset is 4, and a successful device read of 0 bytes makes the
inbound slice `&buffer[4..0]` panic (modelled as `none`), killing the loop
task: the strip step is not well-defined for every read length `n`. -/
theorem C10_short_read_panics :
    inboundOffset Platform.linux true = 4 ∧
    stripContent (inboundOffset Platform.linux true) [] = none ∧
    (step Platform.linux true envAllOk initState (Event.devRead [])).term
      = some TermReason.sliceOutOfBounds :=
  ⟨rfl, rfl, rfl⟩

/-- C10 (amended): the strip step is well-defined exactly for reads of at
least the configured offset, where it yields the read bytes from the
offset on; a shorter read — such as n = 0 in packet-info mode off
windows — makes the slice operation panic, terminating the loop task. -/
theorem C10_strip_defined_iff (plat : Platform) (pi : Bool)
    (bytes : List Nat) (env : Env) (s : LoopState) (hlive : s.term = none) :
    ((stripContent (inboundOffset plat pi) bytes).isSome
      ↔ inboundOffset plat pi ≤ bytes.length) ∧
    (inboundOffset plat pi ≤ bytes.length →
      stripContent (inboundOffset plat pi) bytes
        = some (List.drop (inboundOffset plat pi) bytes)) ∧
    (bytes.length < inboundOffset plat pi →
      (step plat pi env s (Event.devRead bytes)).term
        = some TermReason.sliceOutOfBounds) := by
  refine ⟨?_, ?_, ?_⟩
  · by_cases h : inboundOffset plat pi ≤ bytes.length <;> simp [stripContent, h]
  · intro h
    simp [stripContent, h]
  · intro h
    have hsc : stripContent (inboundOffset plat pi) bytes = none := by
      simp [stripContent, Nat.not_le.mpr h]
    simp [step, hlive, hsc]

/-- Witness for C10 (amended) at a zero-length read in packet-info mode. -/
theorem C10_strip_defined_iff_witness :
    initState.term = none ∧
    (((stripContent (inboundOffset Platform.linux true) []).isSome
        ↔ inboundOffset Platform.linux true ≤ List.length ([] : List Nat)) ∧
     (inboundOffset Platform.linux true ≤ List.length ([] : List Nat) →
       stripContent (inboundOffset Platform.linux true) []
         = some (List.drop (inboundOffset Platform.linux true) [])) ∧
     (List.length ([] : List Nat) < inboundOffset Platform.linux true →
       (step Platform.linux true envAllOk initState (Event.devRead [])).term
         = some TermReason.sliceOutOfBounds)) :=
  ⟨rfl, C10_strip_defined_iff Platform.linux true [] envAllOk initState rfl⟩

end Ipstack
